import Mathlib

/-!
Shallow embedding of the epoch-synchronization core of
src/complex_component/complex_component.py (class ComplexComponent) together
with the message record it consumes (src/complex_component/complex_message.py,
class ComplexMessage).

Python floats are modelled as exact rationals; Python round(x, 3) is modelled
as round-half-to-even at the third decimal on those rationals.  Sets of peer
names (Python set of str) are Finset String; the ordered causal-id list
(self._triggering_message_ids) is a List String.
-/

/-- Rounding of a rational to the nearest integer, ties to even, mirroring the
semantics of the built-in Python round applied to an exact value. -/
def roundHalfEven (x : ℚ) : ℤ :=
  if x - (⌊x⌋ : ℚ) < 1 / 2 then ⌊x⌋
  else if 1 / 2 < x - (⌊x⌋ : ℚ) then ⌊x⌋ + 1
  else if ⌊x⌋ % 2 = 0 then ⌊x⌋ else ⌊x⌋ + 1

/-- Python round(x, 3): round to three decimal places, ties to even. -/
def round3 (x : ℚ) : ℚ := ((roundHalfEven (x * 1000) : ℤ) : ℚ) / 1000

/-- The fields of a ComplexMessage that the component reads:
source_process_id, epoch_number and message_id come from the
AbstractResultMessage base class, complex_value (JSON attribute ComplexValue)
is declared in complex_message.py. -/
structure ComplexMessage where
  source_process_id : String
  epoch_number : ℕ
  complex_value : ℚ
  message_id : String
deriving DecidableEq

/-- The state of a ComplexComponent: the constructor arguments stored in
__init__ (complex_value, complex_string, input_components, output_delay), the
epoch-scoped variables _current_number_sum and _current_input_components, and
the two framework fields the methods read, _latest_epoch and
_triggering_message_ids.  The topic-name fields are pure routing strings never
read by the epoch logic and are omitted. -/
structure ComplexComponent where
  complex_value : ℚ
  complex_string : String
  input_components : Finset String
  output_delay : ℚ
  current_number_sum : ℚ
  current_input_components : Finset String
  latest_epoch : ℕ
  triggering_message_ids : List String
deriving DecidableEq

/-- clear_epoch_variables: sets _current_number_sum to 0.0 and
_current_input_components to the empty set (complex_component.py lines 54-61). -/
def clear_epoch_variables (c : ComplexComponent) : ComplexComponent :=
  { c with current_number_sum := 0, current_input_components := ∅ }

/-- all_messages_received_for_epoch: returns
self._input_components == self._current_input_components
(complex_component.py lines 90-91). -/
def all_messages_received_for_epoch (c : ComplexComponent) : Bool :=
  decide (c.input_components = c.current_input_components)

/-- general_message_handler, ComplexMessage branch (complex_component.py lines
103-121): drop the message when its sender is not a registered input
component; drop it when the sender has already reported this epoch; otherwise
record the sender, fold the value with
round(self._current_number_sum * message_object.complex_value, 3)
and append the message id to _triggering_message_ids.  The message's
epoch_number field is never consulted by the source. -/
def general_message_handler (c : ComplexComponent) (m : ComplexMessage) :
    ComplexComponent :=
  if m.source_process_id ∉ c.input_components then c
  else if m.source_process_id ∈ c.current_input_components then c
  else
    { c with
      current_input_components :=
        insert m.source_process_id c.current_input_components,
      current_number_sum := round3 (c.current_number_sum * m.complex_value),
      triggering_message_ids := c.triggering_message_ids ++ [m.message_id] }

/-- Handling a whole list of inbound ComplexMessages in arrival order. -/
def handleMessages : ComplexComponent → List ComplexMessage → ComplexComponent
  | c, [] => c
  | c, m :: ms => handleMessages (general_message_handler c m) ms

/-- process_epoch, state effect (complex_component.py lines 63-88): when
_current_input_components is non-empty (Python truthiness) and the mode string
is "Correct", the sum is rescaled by _complex_value and rounded; with any
other mode string it is left alone; when _current_input_components is empty,
the sum is replaced by round(_complex_value * _latest_epoch / 1000, 3).  The
subsequent sleep and message emission do not touch this state. -/
def process_epoch (c : ComplexComponent) : ComplexComponent :=
  if c.current_input_components ≠ ∅ then
    if c.complex_string = "Correct" then
      { c with
        current_number_sum := round3 (c.current_number_sum * c.complex_value) }
    else c
  else
    { c with
      current_number_sum :=
        round3 (c.complex_value * (c.latest_epoch : ℚ) / 1000) }

/-! Helper lemmas about the embedded operations. -/

theorem round3_zero : round3 0 = 0 := by
  norm_num [round3, roundHalfEven]

theorem gmh_drop_unknown (c : ComplexComponent) (m : ComplexMessage)
    (h : m.source_process_id ∉ c.input_components) :
    general_message_handler c m = c := by
  unfold general_message_handler
  rw [if_pos h]

theorem gmh_drop_duplicate (c : ComplexComponent) (m : ComplexMessage)
    (h : m.source_process_id ∈ c.current_input_components) :
    general_message_handler c m = c := by
  unfold general_message_handler
  by_cases hI : m.source_process_id ∈ c.input_components
  · rw [if_neg (not_not_intro hI), if_pos h]
  · rw [if_pos hI]

theorem gmh_accept (c : ComplexComponent) (m : ComplexMessage)
    (h1 : m.source_process_id ∈ c.input_components)
    (h2 : m.source_process_id ∉ c.current_input_components) :
    general_message_handler c m =
      { c with
        current_input_components :=
          insert m.source_process_id c.current_input_components,
        current_number_sum := round3 (c.current_number_sum * m.complex_value),
        triggering_message_ids :=
          c.triggering_message_ids ++ [m.message_id] } := by
  unfold general_message_handler
  rw [if_neg (not_not_intro h1), if_neg h2]

theorem gmh_input_components (c : ComplexComponent) (m : ComplexMessage) :
    (general_message_handler c m).input_components = c.input_components := by
  unfold general_message_handler
  split_ifs <;> rfl

theorem gmh_reported (c : ComplexComponent) (m : ComplexMessage) :
    (general_message_handler c m).current_input_components =
      c.current_input_components ∪
        ({m.source_process_id} ∩ c.input_components) := by
  by_cases h1 : m.source_process_id ∈ c.input_components
  · by_cases h2 : m.source_process_id ∈ c.current_input_components
    · rw [gmh_drop_duplicate c m h2, Finset.singleton_inter_of_mem h1]
      exact (Finset.union_eq_left.mpr (Finset.singleton_subset_iff.mpr h2)).symm
    · rw [gmh_accept c m h1 h2]
      show insert m.source_process_id c.current_input_components =
        c.current_input_components ∪
          ({m.source_process_id} ∩ c.input_components)
      rw [Finset.singleton_inter_of_mem h1, Finset.union_comm,
        ← Finset.insert_eq]
  · rw [gmh_drop_unknown c m h1, Finset.singleton_inter_of_not_mem h1,
      Finset.union_empty]

theorem gmh_sum_zero (c : ComplexComponent) (m : ComplexMessage)
    (h : c.current_number_sum = 0) :
    (general_message_handler c m).current_number_sum = 0 := by
  by_cases h1 : m.source_process_id ∈ c.input_components
  · by_cases h2 : m.source_process_id ∈ c.current_input_components
    · rw [gmh_drop_duplicate c m h2]
      exact h
    · rw [gmh_accept c m h1 h2]
      show round3 (c.current_number_sum * m.complex_value) = 0
      rw [h, zero_mul, round3_zero]
  · rw [gmh_drop_unknown c m h1]
    exact h

theorem handleMessages_input_components (ms : List ComplexMessage)
    (c : ComplexComponent) :
    (handleMessages c ms).input_components = c.input_components := by
  induction ms generalizing c with
  | nil => rfl
  | cons m ms ih =>
      show (handleMessages (general_message_handler c m) ms).input_components =
        c.input_components
      rw [ih, gmh_input_components]

theorem handleMessages_reported (ms : List ComplexMessage)
    (c : ComplexComponent) :
    (handleMessages c ms).current_input_components =
      c.current_input_components ∪
        ((ms.map ComplexMessage.source_process_id).toFinset ∩
          c.input_components) := by
  induction ms generalizing c with
  | nil => simp [handleMessages]
  | cons m ms ih =>
      show (handleMessages (general_message_handler c m) ms).current_input_components = _
      rw [ih, gmh_reported, gmh_input_components]
      ext x
      simp only [List.map_cons, List.toFinset_cons, Finset.mem_union,
        Finset.mem_inter, Finset.mem_insert, Finset.mem_singleton,
        List.mem_toFinset, List.mem_map]
      tauto

theorem handleMessages_sum_zero (ms : List ComplexMessage)
    (c : ComplexComponent) (h : c.current_number_sum = 0) :
    (handleMessages c ms).current_number_sum = 0 := by
  induction ms generalizing c with
  | nil => exact h
  | cons m ms ih =>
      exact ih (general_message_handler c m) (gmh_sum_zero c m h)

/-! Claim theorems. -/

/-- C3: an accepted input (sender registered as an input component and not yet
reported this epoch) adds the sender to _current_input_components, updates the
sum to round(sum * value, 3) and appends the message id to
_triggering_message_ids. -/
theorem accepted_input_updates_state (c : ComplexComponent)
    (m : ComplexMessage)
    (h1 : m.source_process_id ∈ c.input_components)
    (h2 : m.source_process_id ∉ c.current_input_components) :
    (general_message_handler c m).current_input_components =
      insert m.source_process_id c.current_input_components ∧
    (general_message_handler c m).current_number_sum =
      round3 (c.current_number_sum * m.complex_value) ∧
    (general_message_handler c m).triggering_message_ids =
      c.triggering_message_ids ++ [m.message_id] := by
  rw [gmh_accept c m h1 h2]
  exact ⟨rfl, rfl, rfl⟩

def cW3 : ComplexComponent :=
  { complex_value := 2, complex_string := "Correct",
    input_components := {"P1", "P2"}, output_delay := 0,
    current_number_sum := 0, current_input_components := ∅,
    latest_epoch := 1, triggering_message_ids := [] }

def mW3 : ComplexMessage :=
  { source_process_id := "P1", epoch_number := 1, complex_value := 3,
    message_id := "m1" }

theorem accepted_input_updates_state_witness :
    mW3.source_process_id ∈ cW3.input_components ∧
    mW3.source_process_id ∉ cW3.current_input_components ∧
    ((general_message_handler cW3 mW3).current_input_components =
        insert mW3.source_process_id cW3.current_input_components ∧
      (general_message_handler cW3 mW3).current_number_sum =
        round3 (cW3.current_number_sum * mW3.complex_value) ∧
      (general_message_handler cW3 mW3).triggering_message_ids =
        cW3.triggering_message_ids ++ [mW3.message_id]) :=
  ⟨by decide, by decide,
    accepted_input_updates_state cW3 mW3 (by decide) (by decide)⟩

/-- C5: an input from a sender that has already reported this epoch leaves the
whole state unchanged, and two consecutive inputs with the same sender fold
only the first, whatever their values. -/
theorem duplicate_input_is_ignored (c : ComplexComponent)
    (m1 m2 : ComplexMessage)
    (hs : m2.source_process_id = m1.source_process_id) :
    (m1.source_process_id ∈ c.current_input_components →
      general_message_handler c m1 = c) ∧
    general_message_handler (general_message_handler c m1) m2 =
      general_message_handler c m1 := by
  refine ⟨gmh_drop_duplicate c m1, ?_⟩
  by_cases h1 : m1.source_process_id ∈ c.input_components
  · by_cases h2 : m1.source_process_id ∈ c.current_input_components
    · rw [gmh_drop_duplicate c m1 h2]
      exact gmh_drop_duplicate c m2 (by rw [hs]; exact h2)
    · rw [gmh_accept c m1 h1 h2]
      apply gmh_drop_duplicate
      show m2.source_process_id ∈
        insert m1.source_process_id c.current_input_components
      rw [hs]
      exact Finset.mem_insert_self _ _
  · rw [gmh_drop_unknown c m1 h1]
    exact gmh_drop_unknown c m2 (by rw [hs]; exact h1)

def cW5 : ComplexComponent :=
  { complex_value := 2, complex_string := "Correct",
    input_components := {"P1"}, output_delay := 0,
    current_number_sum := 0, current_input_components := ∅,
    latest_epoch := 1, triggering_message_ids := [] }

def mW5a : ComplexMessage :=
  { source_process_id := "P1", epoch_number := 1, complex_value := 3,
    message_id := "m1" }

def mW5b : ComplexMessage :=
  { source_process_id := "P1", epoch_number := 1, complex_value := 4,
    message_id := "m2" }

theorem duplicate_input_is_ignored_witness :
    mW5b.source_process_id = mW5a.source_process_id ∧
    general_message_handler (general_message_handler cW5 mW5a) mW5b =
      general_message_handler cW5 mW5a :=
  ⟨rfl, (duplicate_input_is_ignored cW5 mW5a mW5b rfl).2⟩

/-- C6: an input whose sender is not a registered input component leaves the
whole component state unchanged; the handler is a total function, so the drop
is silent and nothing is raised to the caller. -/
theorem unknown_peer_input_is_ignored (c : ComplexComponent)
    (m : ComplexMessage)
    (h : m.source_process_id ∉ c.input_components) :
    general_message_handler c m = c :=
  gmh_drop_unknown c m h

def cW6 : ComplexComponent :=
  { complex_value := 2, complex_string := "Correct",
    input_components := {"P1"}, output_delay := 0,
    current_number_sum := 0, current_input_components := ∅,
    latest_epoch := 1, triggering_message_ids := [] }

def mW6 : ComplexMessage :=
  { source_process_id := "P9", epoch_number := 1, complex_value := 3,
    message_id := "m1" }

theorem unknown_peer_input_is_ignored_witness :
    mW6.source_process_id ∉ cW6.input_components ∧
    general_message_handler cW6 mW6 = cW6 :=
  ⟨by decide, unknown_peer_input_is_ignored cW6 mW6 (by decide)⟩

/-- C7: with the sum seeded at 0.0 and the fold
round(sum * value, 3), the sum is still 0 after any sequence of inbound
messages, whatever their values: the aggregation collapses to 0. -/
theorem aggregate_collapses_to_zero (ms : List ComplexMessage)
    (c : ComplexComponent) (h : c.current_number_sum = 0) :
    (handleMessages c ms).current_number_sum = 0 :=
  handleMessages_sum_zero ms c h

def cW7 : ComplexComponent :=
  { complex_value := 2, complex_string := "Correct",
    input_components := {"P1", "P2"}, output_delay := 0,
    current_number_sum := 0, current_input_components := ∅,
    latest_epoch := 1, triggering_message_ids := [] }

def mW7a : ComplexMessage :=
  { source_process_id := "P1", epoch_number := 1, complex_value := 3,
    message_id := "m1" }

def mW7b : ComplexMessage :=
  { source_process_id := "P2", epoch_number := 1, complex_value := 4,
    message_id := "m2" }

theorem aggregate_collapses_to_zero_witness :
    cW7.current_number_sum = 0 ∧
    (handleMessages cW7 [mW7a, mW7b]).current_number_sum = 0 :=
  ⟨rfl, aggregate_collapses_to_zero [mW7a, mW7b] cW7 rfl⟩

/-- C10: once every registered input component has reported
(all_messages_received_for_epoch is true), any further inbound message is a
no-op: the state is unchanged and the completion predicate stays true, so the
component never regresses from complete to collecting within an epoch. -/
theorem complete_never_regresses (c : ComplexComponent) (m : ComplexMessage)
    (h : all_messages_received_for_epoch c = true) :
    general_message_handler c m = c ∧
    all_messages_received_for_epoch (general_message_handler c m) = true := by
  have hI : c.input_components = c.current_input_components := by
    simpa [all_messages_received_for_epoch] using h
  have hm : general_message_handler c m = c := by
    by_cases h1 : m.source_process_id ∈ c.input_components
    · exact gmh_drop_duplicate c m (by rw [← hI]; exact h1)
    · exact gmh_drop_unknown c m h1
  exact ⟨hm, by rw [hm]; exact h⟩

def cW10 : ComplexComponent :=
  { complex_value := 2, complex_string := "Correct",
    input_components := {"P1"}, output_delay := 0,
    current_number_sum := 0, current_input_components := {"P1"},
    latest_epoch := 1, triggering_message_ids := ["m1"] }

def mW10 : ComplexMessage :=
  { source_process_id := "P1", epoch_number := 1, complex_value := 9,
    message_id := "m9" }

theorem complete_never_regresses_witness :
    all_messages_received_for_epoch cW10 = true ∧
    (general_message_handler cW10 mW10 = cW10 ∧
      all_messages_received_for_epoch
        (general_message_handler cW10 mW10) = true) :=
  ⟨by decide, complete_never_regresses cW10 mW10 (by decide)⟩

/-- C2: all_messages_received_for_epoch is true exactly when the reported set
equals the registered input-component set, and, starting from an empty
reported set, handling any list of inbound messages makes it true exactly
when every registered input component occurs among the senders, whatever the
arrival order. -/
theorem epoch_completion_characterization :
    (∀ c : ComplexComponent,
      all_messages_received_for_epoch c = true ↔
        c.current_input_components = c.input_components) ∧
    (∀ (c : ComplexComponent) (ms : List ComplexMessage),
      c.input_components.Nonempty →
      c.current_input_components = ∅ →
      (all_messages_received_for_epoch (handleMessages c ms) = true ↔
        ∀ p ∈ c.input_components,
          ∃ m ∈ ms, m.source_process_id = p)) := by
  constructor
  · intro c
    simp [all_messages_received_for_epoch, eq_comm]
  · intro c ms hne hrep
    have h1 : all_messages_received_for_epoch (handleMessages c ms) = true ↔
        (handleMessages c ms).input_components =
          (handleMessages c ms).current_input_components := by
      simp [all_messages_received_for_epoch]
    rw [h1, handleMessages_input_components, handleMessages_reported, hrep,
      Finset.empty_union]
    constructor
    · intro hI p hp
      have hp2 : p ∈ (ms.map ComplexMessage.source_process_id).toFinset ∩
          c.input_components := by
        rw [← hI]
        exact hp
      rcases List.mem_map.mp
        (List.mem_toFinset.mp (Finset.mem_of_mem_inter_left hp2)) with
        ⟨m, hm, hms⟩
      exact ⟨m, hm, hms⟩
    · intro hall
      have hsub : c.input_components ⊆
          (ms.map ComplexMessage.source_process_id).toFinset := by
        intro p hp
        rcases hall p hp with ⟨m, hm, hms⟩
        exact List.mem_toFinset.mpr (List.mem_map.mpr ⟨m, hm, hms⟩)
      exact (Finset.inter_eq_right.mpr hsub).symm

def cW2 : ComplexComponent :=
  { complex_value := 2, complex_string := "Correct",
    input_components := {"P1", "P2"}, output_delay := 0,
    current_number_sum := 0, current_input_components := ∅,
    latest_epoch := 1, triggering_message_ids := [] }

def mW2a : ComplexMessage :=
  { source_process_id := "P2", epoch_number := 1, complex_value := 4,
    message_id := "m2" }

def mW2b : ComplexMessage :=
  { source_process_id := "P1", epoch_number := 1, complex_value := 3,
    message_id := "m1" }

theorem epoch_completion_characterization_witness :
    cW2.input_components.Nonempty ∧
    cW2.current_input_components = ∅ ∧
    (all_messages_received_for_epoch
        (handleMessages cW2 [mW2a, mW2b]) = true ↔
      ∀ p ∈ cW2.input_components,
        ∃ m ∈ [mW2a, mW2b], m.source_process_id = p) :=
  ⟨by decide, rfl,
    epoch_completion_characterization.2 cW2 [mW2a, mW2b] (by decide) rfl⟩

/-- C4: assuming the completion precondition of process_epoch (every
registered input component has reported), the computed value follows the dual
rule: with a non-empty input-component set it is
round(sum * complex_value, 3) when the mode string is "Correct" and the sum
unchanged otherwise; with an empty input-component set it is
round(complex_value * latest_epoch / 1000, 3). -/
theorem process_epoch_dual_rule (c : ComplexComponent)
    (h : c.current_input_components = c.input_components) :
    (c.input_components ≠ ∅ →
      (process_epoch c).current_number_sum =
        if c.complex_string = "Correct" then
          round3 (c.current_number_sum * c.complex_value)
        else c.current_number_sum) ∧
    (c.input_components = ∅ →
      (process_epoch c).current_number_sum =
        round3 (c.complex_value * (c.latest_epoch : ℚ) / 1000)) := by
  constructor
  · intro hne
    unfold process_epoch
    rw [if_pos (show c.current_input_components ≠ ∅ by rw [h]; exact hne)]
    by_cases hs : c.complex_string = "Correct"
    · rw [if_pos hs, if_pos hs]
    · rw [if_neg hs, if_neg hs]
  · intro he
    unfold process_epoch
    rw [if_neg (not_not_intro
      (show c.current_input_components = ∅ by rw [h]; exact he))]

def cW4 : ComplexComponent :=
  { complex_value := 5, complex_string := "",
    input_components := ∅, output_delay := 0,
    current_number_sum := 0, current_input_components := ∅,
    latest_epoch := 7, triggering_message_ids := [] }

theorem process_epoch_dual_rule_witness :
    cW4.current_input_components = cW4.input_components ∧
    cW4.input_components = ∅ ∧
    (process_epoch cW4).current_number_sum = 35 / 1000 := by
  refine ⟨rfl, rfl, ?_⟩
  rw [(process_epoch_dual_rule cW4 rfl).2 rfl]
  norm_num [cW4, round3, roundHalfEven]

def cW8 : ComplexComponent :=
  { complex_value := 5, complex_string := "",
    input_components := ∅, output_delay := 0,
    current_number_sum := 0, current_input_components := ∅,
    latest_epoch := 7, triggering_message_ids := [] }

/-- C8 counterexample: process_epoch is not a pure observer of the state: it
stores the computed output value in _current_number_sum, so at the standalone
state with complex_value 5, latest_epoch 7 and sum 0 the sum becomes 0.035
and the state changes. -/
theorem process_epoch_mutates_aggregate :
    (process_epoch cW8).current_number_sum ≠ cW8.current_number_sum ∧
    process_epoch cW8 ≠ cW8 := by
  have h1 : (process_epoch cW8).current_number_sum ≠ cW8.current_number_sum := by
    norm_num [process_epoch, cW8, round3, roundHalfEven]
  exact ⟨h1, fun h => h1 (congrArg ComplexComponent.current_number_sum h)⟩

/-- C8 (amended): process_epoch leaves every field except
_current_number_sum unchanged, and overwrites _current_number_sum with the
computed output value. -/
theorem process_epoch_frame (c : ComplexComponent) :
    (process_epoch c).input_components = c.input_components ∧
    (process_epoch c).current_input_components =
      c.current_input_components ∧
    (process_epoch c).latest_epoch = c.latest_epoch ∧
    (process_epoch c).triggering_message_ids = c.triggering_message_ids ∧
    (process_epoch c).complex_value = c.complex_value ∧
    (process_epoch c).complex_string = c.complex_string ∧
    (process_epoch c).output_delay = c.output_delay ∧
    (process_epoch c).current_number_sum =
      (if c.current_input_components ≠ ∅ then
        (if c.complex_string = "Correct" then
          round3 (c.current_number_sum * c.complex_value)
        else c.current_number_sum)
      else round3 (c.complex_value * (c.latest_epoch : ℚ) / 1000)) := by
  unfold process_epoch
  split_ifs <;> exact ⟨rfl, rfl, rfl, rfl, rfl, rfl, rfl, rfl⟩

def cW9 : ComplexComponent :=
  { complex_value := 2, complex_string := "Correct",
    input_components := {"P1"}, output_delay := 0,
    current_number_sum := 12, current_input_components := {"P1"},
    latest_epoch := 3, triggering_message_ids := ["m1"] }

/-- C9 counterexample: clear_epoch_variables does not clear the causal-id
list: at a state whose _triggering_message_ids is ["m1"], the list is still
["m1"] after the call, not empty. -/
theorem clear_epoch_variables_keeps_causal_ids :
    (clear_epoch_variables cW9).triggering_message_ids = ["m1"] ∧
    (clear_epoch_variables cW9).triggering_message_ids ≠ [] :=
  ⟨rfl, by simp [clear_epoch_variables, cW9]⟩

/-- C9 (amended): clear_epoch_variables is idempotent, empties the reported
set and resets the sum to the neutral value 0 without changing the
input-component set, any configuration field, the epoch number or the
causal-id list, and its result does not depend on the prior values of the sum
and the reported set. -/
theorem clear_epoch_variables_spec (c : ComplexComponent) :
    clear_epoch_variables (clear_epoch_variables c) =
      clear_epoch_variables c ∧
    (clear_epoch_variables c).current_input_components = ∅ ∧
    (clear_epoch_variables c).current_number_sum = 0 ∧
    (clear_epoch_variables c).input_components = c.input_components ∧
    (clear_epoch_variables c).complex_value = c.complex_value ∧
    (clear_epoch_variables c).complex_string = c.complex_string ∧
    (clear_epoch_variables c).output_delay = c.output_delay ∧
    (clear_epoch_variables c).latest_epoch = c.latest_epoch ∧
    (clear_epoch_variables c).triggering_message_ids =
      c.triggering_message_ids ∧
    (∀ (s : ℚ) (r : Finset String),
      clear_epoch_variables
        { c with current_number_sum := s, current_input_components := r } =
        clear_epoch_variables c) :=
  ⟨rfl, rfl, rfl, rfl, rfl, rfl, rfl, rfl, rfl, fun _ _ => rfl⟩

def cW1 : ComplexComponent :=
  { complex_value := 2, complex_string := "Correct",
    input_components := {"P1"}, output_delay := 0,
    current_number_sum := 0, current_input_components := ∅,
    latest_epoch := 1, triggering_message_ids := [] }

def mW1 : ComplexMessage :=
  { source_process_id := "P1", epoch_number := 2, complex_value := 3,
    message_id := "m1" }

/-- C1: general_message_handler never consults the message epoch_number, so a
message tagged with an epoch different from _latest_epoch is still folded
when its sender is a registered, not-yet-reported input component: here the
epoch-2 message reaches the epoch-1 component and still changes the reported
set and the causal-id list. -/
theorem wrong_epoch_input_still_folded :
    mW1.epoch_number ≠ cW1.latest_epoch ∧
    (general_message_handler cW1 mW1).current_input_components ≠
      cW1.current_input_components ∧
    (general_message_handler cW1 mW1).current_input_components = {"P1"} ∧
    (general_message_handler cW1 mW1).triggering_message_ids = ["m1"] := by
  refine ⟨by decide, ?_, ?_, ?_⟩ <;> simp [general_message_handler, cW1, mW1]
